import Mathlib

/-!
Verification development for the SAP Notes MCP server
(`marianfoo/mcp-sap-notes`): a shallow embedding of the credential and
session lifecycle core (`SapAuthenticator`, `SapNotesApiClient`, the MCP
tool dispatch) together with proofs of the specified properties.

Conventions of the embedding:
* JavaScript numbers carrying epoch milliseconds are modelled as `Nat`
  (all timestamps handled by the program are non-negative).
* JavaScript exceptions are modelled with an explicit error value
  (`JsError`, carrying the `message` string); a fallible call returns
  `Except JsError α`.
* JavaScript truthiness on strings (`""` is falsy) and on numbers
  (`0` is falsy) is modelled explicitly by the `jsOr*` helpers.
* Fields that may be `undefined` in the dynamic JSON shapes are
  modelled as `Option`.
-/

namespace SapNotesMcp

/-- A JavaScript `Error` value, identified by its `message` string. -/
structure JsError where
  message : String
deriving DecidableEq, Repr

/-- JS `a || b` on possibly-undefined strings: `undefined` and `""` are
falsy and fall through to `b`. -/
def jsOrStr (a : Option String) (b : Option String) : Option String :=
  match a with
  | some s => if s = "" then b else some s
  | none => b

/-- JS `a || b` where `a` is a possibly-undefined number: `undefined`
and `0` are falsy and fall through to `b`. -/
def jsOrNat (a : Option Nat) (b : Nat) : Nat :=
  match a with
  | some n => if n = 0 then b else n
  | none => b

/-- JS string truthiness: `undefined` and `""` are falsy. -/
def strTruthy (a : Option String) : Bool :=
  match a with
  | some s => s ≠ ""
  | none => false

/-- `pat` starts `s` (character-list prefix test). -/
def listStartsWith : List Char → List Char → Bool
  | [], _ => true
  | _ :: _, [] => false
  | p :: ps, c :: cs => p == c && listStartsWith ps cs

/-- `pat` occurs somewhere in `cs`. -/
def listHasInfix (pat : List Char) : List Char → Bool
  | [] => listStartsWith pat []
  | c :: cs => listStartsWith pat (c :: cs) || listHasInfix pat cs

/-- `pat` occurs as a substring of `s` (JS `String.prototype.includes`). -/
def strIncludes (s pat : String) : Bool :=
  listHasInfix pat.toList s.toList

/-! ## Calendar conversion

`new Date(ms).toISOString().split('T')[0]` for a non-negative epoch
timestamp in milliseconds: proleptic Gregorian civil date in UTC,
computed with the standard days-to-civil algorithm. -/

/-- Civil date `(year, month, day)` from a day count since 1970-01-01
(non-negative, so era arithmetic stays in `Nat`). -/
def civilFromDays (days : Nat) : Nat × Nat × Nat :=
  let z := days + 719468
  let era := z / 146097
  let doe := z % 146097
  let yoe := (doe - doe / 1460 + doe / 36524 - doe / 146096) / 365
  let y := yoe + era * 400
  let doy := doe - (365 * yoe + yoe / 4 - yoe / 100)
  let mp := (5 * doy + 2) / 153
  let d := doy - (153 * mp + 2) / 5 + 1
  let m := if mp < 10 then mp + 3 else mp - 9
  (if m ≤ 2 then y + 1 else y, m, d)

/-- Zero-pad a number below 100 to two digits. -/
def pad2 (n : Nat) : String :=
  if n < 10 then "0" ++ toString n else toString n

/-- The date part of the ISO-8601 rendering of an epoch-millisecond
timestamp, as produced by `toISOString().split('T')[0]`. -/
def toISODateUTC (ms : Nat) : String :=
  let c := civilFromDays (ms / 86400000)
  toString c.1 ++ "-" ++ pad2 c.2.1 ++ "-" ++ pad2 c.2.2

/-! ## Canonical result shapes (`sap-notes-api.ts`) -/

/-- `SapNoteResult` — the canonical search hit.  The `language` and
`component` fields can receive `undefined` at runtime (the TypeScript
annotations notwithstanding), so they are `Option` here. -/
structure SapNoteResult where
  id : String
  title : String
  summary : String
  language : Option String
  releaseDate : String
  component : Option String
  url : String
deriving DecidableEq, Repr

/-- `SapNoteDetail` — the canonical detail-retrieval result. -/
structure SapNoteDetail where
  id : String
  title : String
  summary : String
  content : String
  language : String
  releaseDate : String
  component : Option String
  priority : Option String
  category : Option String
  url : String
deriving DecidableEq, Repr

/-- `SapNoteSearchResponse`. -/
structure SapNoteSearchResponse where
  results : List SapNoteResult
  totalResults : Nat
  query : String
deriving DecidableEq, Repr

/-! ## Coveo response shape and `parseCoveoResponse` -/

/-- The `raw` sub-object of a Coveo hit (only the fields the parser
reads).  Array-valued fields are lists; absent fields are `none`. -/
structure CoveoRaw where
  mh_id : Option String
  permanentid : Option String
  language : Option (List String)
  syslanguage : Option (List String)
  mh_app_component : Option (List String)
  mh_all_hierarchical_component : Option (List String)
  mh_description : Option String
  mh_alt_url : Option String
  date : Option Nat
deriving DecidableEq, Repr

/-- One hit of a Coveo search response. -/
structure CoveoItem where
  title : Option String
  excerpt : Option String
  clickUri : Option String
  raw : Option CoveoRaw
deriving DecidableEq, Repr

/-- A Coveo search response body; `results = none` models a missing or
non-array `results` field. -/
structure CoveoData where
  results : Option (List CoveoItem)
  totalCount : Option Nat
deriving DecidableEq, Repr

/-- First match of the JS regex `/\d{6,8}/` on a string: the leftmost
run of at least six digits, truncated to eight characters.  Returns
`none` when no six-digit run exists. -/
def firstDigitRun (cs : List Char) : Option String :=
  match cs with
  | [] => none
  | c :: rest =>
    let run := (c :: rest).takeWhile Char.isDigit
    if 6 ≤ run.length then some (String.mk (run.take 8))
    else firstDigitRun rest

/-- `/\d{6,8}/` applied to an optional string, as in
`item.raw?.permanentid?.match(/\d{6,8}/)?.[0]`. -/
def matchDigits (s : Option String) : Option String :=
  match s with
  | some s => firstDigitRun s.toList
  | none => none

/-- The note identifier extracted from one Coveo hit:
`item.raw?.mh_id || item.raw?.permanentid?.match(...) ||
item.title?.match(...) || 'unknown'`. -/
def coveoNoteId (item : CoveoItem) : String :=
  (jsOrStr ((item.raw.map CoveoRaw.mh_id).getD none)
    (jsOrStr (matchDigits ((item.raw.map CoveoRaw.permanentid).getD none))
      (matchDigits item.title))).getD "unknown"

/-- Normalization of a single Coveo hit into a `SapNoteResult`
(the loop body of `parseCoveoResponse`). -/
def parseCoveoItem (item : CoveoItem) : SapNoteResult :=
  let noteId := coveoNoteId item
  let languageArray :=
    ((item.raw.map CoveoRaw.language).getD none).getD
      (((item.raw.map CoveoRaw.syslanguage).getD none).getD [])
  let componentArray :=
    ((item.raw.map CoveoRaw.mh_app_component).getD none).getD
      (((item.raw.map CoveoRaw.mh_all_hierarchical_component).getD none).getD [])
  let releaseDate :=
    match (item.raw.map CoveoRaw.date).getD none with
    | some d => if d = 0 then "Unknown" else toISODateUTC d
    | none => "Unknown"
  { id := noteId
    title := (jsOrStr item.title none).getD "Unknown Title"
    summary :=
      (jsOrStr item.excerpt
        ((item.raw.map CoveoRaw.mh_description).getD none)).getD
        "No summary available"
    language := languageArray.head?
    releaseDate := releaseDate
    component := componentArray.head?
    url :=
      (jsOrStr ((item.raw.map CoveoRaw.mh_alt_url).getD none)
        (jsOrStr item.clickUri none)).getD
        ("https://launchpad.support.sap.com/#/notes/" ++ noteId) }

/-- `SapNotesApiClient.parseCoveoResponse`: a missing or non-array
`results` field yields the empty list; otherwise every hit is
normalized in order.  (The per-item `try`/`catch` of the source cannot
fire in this embedding because item access is total.) -/
def parseCoveoResponse (data : CoveoData) : List SapNoteResult :=
  match data.results with
  | none => []
  | some items => items.map parseCoveoItem

/-! ## HTML / OData detail parsing (`sap-notes-api.ts`) -/

/-- Case-insensitive prefix test on character lists (the `i` flag of the
title regex). -/
def ciStartsWith : List Char → List Char → Bool
  | [], _ => true
  | _ :: _, [] => false
  | p :: ps, c :: cs => (p.toLower == c.toLower) && ciStartsWith ps cs

/-- The whitespace class `\s` of JS regexes, restricted to the ASCII
characters (the Unicode space characters do not appear in the inputs
of interest). -/
def jsWhitespace (c : Char) : Bool :=
  c == ' ' || c == '\t' || c == '\n' || c == '\r' || c == '\x0b' || c == '\x0c'

/-- Lazy scan of `(.*?)<\/title>` (case-insensitive): accumulate
characters until a closing `</title>` starts, failing on a line
terminator (`.` does not match one) or end of input. -/
def titleCloseScan : List Char → Option (List Char)
  | [] => none
  | c :: cs =>
    if ciStartsWith "</title>".toList (c :: cs) then some []
    else if c == '\n' || c == '\r' then none
    else
      match titleCloseScan cs with
      | some g => some (c :: g)
      | none => none

/-- First match of `/<title>(.*?)<\/title>/i`: the captured group of the
leftmost `<title>` occurrence that is followed by `</title>` on the
same line; scanning resumes one character further on a failed start,
as the regex engine does. -/
def findTitleTag : List Char → Option (List Char)
  | [] => none
  | c :: cs =>
    if ciStartsWith "<title>".toList (c :: cs) then
      match titleCloseScan ((c :: cs).drop 7) with
      | some g => some g
      | none => findTitleTag cs
    else findTitleTag cs

/-- `replace(/SAP\s*-?\s*/i, '')`: remove the first occurrence of `SAP`
(case-insensitive) together with the following whitespace, optional
hyphen and whitespace. -/
def replaceSapOnce : List Char → List Char
  | [] => []
  | c :: cs =>
    if ciStartsWith "SAP".toList (c :: cs) then
      let afterSap := ((c :: cs).drop 3).dropWhile jsWhitespace
      match afterSap with
      | '-' :: r => r.dropWhile jsWhitespace
      | _ => afterSap
    else c :: replaceSapOnce cs

/-- JS `String.prototype.trim` on a character list. -/
def jsTrim (cs : List Char) : List Char :=
  ((cs.dropWhile jsWhitespace).reverse.dropWhile jsWhitespace).reverse

/-- `SapNotesApiClient.parseHtmlForNoteDetail`: extract a title from the
`<title>` tag if one is present (stripping a leading `SAP -` marker),
defaulting to `SAP Note <id>`, and return a detail record with fixed
placeholder summary and content.  The function never returns `none`. -/
def parseHtmlForNoteDetail (html : String) (noteId : String) : Option SapNoteDetail :=
  let title :=
    match findTitleTag html.toList with
    | some g => String.mk (jsTrim (replaceSapOnce g))
    | none => "SAP Note " ++ noteId
  some
    { id := noteId
      title := title
      summary := "SAP Note details available at the provided URL"
      content := "Please visit the URL for complete note content"
      language := "EN"
      releaseDate := "Unknown"
      component := none
      priority := none
      category := none
      url := "https://launchpad.support.sap.com/#/notes/" ++ noteId }

/-- The OData-style JSON item read by `mapToSapNoteDetail`; every field
the code probes, each possibly `undefined`. -/
structure ODataItem where
  SapNote : Option String
  Id : Option String
  id : Option String
  Title : Option String
  title : Option String
  Summary : Option String
  summary : Option String
  Description : Option String
  Content : Option String
  content : Option String
  Text : Option String
  Language : Option String
  language : Option String
  ReleaseDate : Option String
  releaseDate : Option String
  CreationDate : Option String
  Component : Option String
  component : Option String
  Priority : Option String
  priority : Option String
  Category : Option String
  category : Option String
deriving DecidableEq, Repr

/-- `SapNotesApiClient.mapToSapNoteDetail`. -/
def mapToSapNoteDetail (item : ODataItem) (noteId : String) : SapNoteDetail :=
  { id := (jsOrStr item.SapNote (jsOrStr item.Id (jsOrStr item.id none))).getD noteId
    title := (jsOrStr item.Title (jsOrStr item.title none)).getD "Unknown Title"
    summary :=
      (jsOrStr item.Summary (jsOrStr item.summary
        (jsOrStr item.Description none))).getD "No summary available"
    content :=
      (jsOrStr item.Content (jsOrStr item.content
        (jsOrStr item.Text (jsOrStr item.summary none)))).getD "Content not available"
    language := (jsOrStr item.Language (jsOrStr item.language none)).getD "EN"
    releaseDate :=
      (jsOrStr item.ReleaseDate (jsOrStr item.releaseDate
        (jsOrStr item.CreationDate none))).getD "Unknown"
    component := jsOrStr item.Component (jsOrStr item.component none)
    priority := jsOrStr item.Priority (jsOrStr item.priority none)
    category := jsOrStr item.Category (jsOrStr item.category none)
    url := "https://launchpad.support.sap.com/#/notes/" ++ noteId }

/-- The body of an HTTP response as seen by `parseNoteResponse`:
its text, and the result of `JSON.parse` on it when the text is
well-formed JSON (with the optional OData `d` wrapper). -/
structure HttpBody where
  text : String
  json : Option (Option ODataItem)
deriving DecidableEq, Repr

/-- `SapNotesApiClient.parseNoteResponse`: try JSON with a truthy `d`
member first, otherwise fall back to HTML parsing of the body text. -/
def parseNoteResponse (body : HttpBody) (noteId : String) : Option SapNoteDetail :=
  match body.json with
  | some (some d) => some (mapToSapNoteDetail d noteId)
  | some none => parseHtmlForNoteDetail body.text noteId
  | none => parseHtmlForNoteDetail body.text noteId

/-! ## Detail retrieval fallback chain (`SapNotesApiClient.getNote`) -/

/-- Outcome of `makeRawRequest` plus `parseRawNoteDetail` in strategy 2:
the response status (`ok`) and the parsed detail when the body was
read. -/
structure RawHttpOutcome where
  ok : Bool
  parsed : Option SapNoteDetail
deriving Repr

/-- The environment of one `getNote` call: the outcome of each
strategy, as it would be produced by the network and browser layers.
`.error` models the strategy throwing; `.ok none` models it completing
without finding a note. -/
structure GetNoteEnv where
  playwright : Except JsError (Option SapNoteDetail)
  rawHttp : Except JsError RawHttpOutcome
  fallback : String → Except JsError (Option SapNoteDetail)

/-- The legacy OData / HTML endpoints tried by strategy 3, in source
order. -/
def fallbackEndpoints (noteId : String) : List String :=
  [ "/services/odata/svt/snogwscorr/Notes(\x27" ++ noteId ++ "\x27)?$format=json"
  , "/services/odata/svt/snogwscorr/KnowledgeBaseEntries?$filter=SapNote eq \x27"
      ++ noteId ++ "\x27&$format=json"
  , "/support/notes/" ++ noteId ]

/-- Result of a `getNote` call, together with a ghost log of the
strategies that were invoked (strategy names / endpoint paths in
invocation order). -/
structure GetNoteRun where
  result : Except JsError (Option SapNoteDetail)
  invoked : List String
deriving Repr

/-- The `for` loop over the fallback endpoints: each endpoint failure
is caught and logged, a non-absent parse returns immediately. -/
def runFallbacks (env : GetNoteEnv) : List String → Option SapNoteDetail × List String
  | [] => (none, [])
  | ep :: rest =>
    match env.fallback ep with
    | .ok (some n) => (some n, [ep])
    | .ok none =>
      let r := runFallbacks env rest
      (r.1, ep :: r.2)
    | .error _ =>
      let r := runFallbacks env rest
      (r.1, ep :: r.2)

/-- `SapNotesApiClient.getNote`: the ordered fallback chain.  Each
strategy sits in its own `try`/`catch`, so a strategy error never
escapes; the outer `catch` of the source cannot fire because every
throwing call in the `try` body is individually guarded, and the
method returns `null` when every strategy fails or yields nothing. -/
def getNote (noteId : String) (env : GetNoteEnv) : GetNoteRun :=
  match env.playwright with
  | .ok (some n) => { result := .ok (some n), invoked := ["playwright"] }
  | _ =>
    let viaFallbacks : GetNoteRun :=
      let fr := runFallbacks env (fallbackEndpoints noteId)
      { result := .ok fr.1, invoked := "playwright" :: "rawHttp" :: fr.2 }
    match env.rawHttp with
    | .ok out =>
      match out.ok, out.parsed with
      | true, some n => { result := .ok (some n), invoked := ["playwright", "rawHttp"] }
      | true, none => viaFallbacks
      | false, _ => viaFallbacks
    | .error _ => viaFallbacks

/-! ## Session token deriver (`SapNotesApiClient.getCoveoToken`) -/

/-- The pooled browser handle; `connected` mirrors
`browser.isConnected()`. -/
structure PooledBrowser where
  id : Nat
  connected : Bool
deriving DecidableEq, Repr

/-- The browser-pool fields of `SapNotesApiClient`; `nextId` is a ghost
source of fresh identifiers for newly launched browsers/contexts. -/
structure ClientState where
  browser : Option PooledBrowser
  browserContext : Option Nat
  browserLastUsed : Nat
  nextId : Nat
deriving DecidableEq, Repr

/-- `BROWSER_IDLE_TIMEOUT` (5 minutes). -/
def BROWSER_IDLE_TIMEOUT : Nat := 5 * 60 * 1000

/-- Navigation outcomes of one token-derivation attempt, as decided by
the vendor pages: whether the session was bounced to a login page,
whether the search-page navigation failed, and the token observed by
the network listener / page-state fallback. -/
structure TokenNavEnv where
  redirectedToLogin : Bool
  searchNavError : Option String
  capturedToken : Option String
  pageToken : Option String
deriving DecidableEq, Repr

/-- Result of `getCoveoToken`: the value or error, the pool state after
the call, and a ghost flag recording whether a new browser was
launched (as opposed to the pooled one being reused). -/
structure TokenRun where
  result : Except JsError String
  state : ClientState
  launchedNew : Bool
deriving Repr

/-- The `catch` block of `getCoveoToken`: a message containing
`Session expired` means the pooled browser holds a dead session — it
is closed and both handles cleared before the distinguished
`SESSION_EXPIRED` error is re-thrown; any other failure is wrapped
generically and the pool is kept. -/
def finishToken (st3 : ClientState) (launched : Bool)
    (bodyResult : Except JsError String) : TokenRun :=
  match bodyResult with
  | .ok tok => { result := .ok tok, state := st3, launchedNew := launched }
  | .error e =>
    if strIncludes e.message "Session expired" then
      { result := .error ⟨"SESSION_EXPIRED"⟩
        state := { st3 with browser := none, browserContext := none }
        launchedNew := launched }
    else
      { result := .error ⟨"Failed to get Coveo bearer token: " ++ e.message⟩
        state := st3
        launchedNew := launched }

/-- `SapNotesApiClient.getCoveoToken`: evict the pooled browser when
idle too long, reuse it when connected, otherwise launch a fresh one;
treat a bounce to a login page as session expiry — tearing the pool
down and surfacing the distinguished `SESSION_EXPIRED` message —
and wrap every other failure in a generic token error.  The transient
page is closed in the `finally`; the pooled browser is kept. -/
def getCoveoToken (now : Nat) (st : ClientState) (env : TokenNavEnv) : TokenRun :=
  let st1 :=
    if st.browser.isSome && decide (now - st.browserLastUsed > BROWSER_IDLE_TIMEOUT) then
      { st with browser := none, browserContext := none }
    else st
  let needNew :=
    match st1.browser with
    | some b => !b.connected
    | none => true
  let launch :=
    ({ st1 with
        browser := some ⟨st1.nextId, true⟩
        browserContext := some (st1.nextId + 1)
        nextId := st1.nextId + 2 }, true)
  let (st2, launched) := if needNew then launch else (st1, false)
  let st3 := { st2 with browserLastUsed := now }
  let bodyResult : Except JsError String :=
    if env.redirectedToLogin then
      .error ⟨"Session expired - authentication required. Run test:auth to refresh credentials."⟩
    else
      match env.searchNavError with
      | some msg => .error ⟨"Failed to load SAP search page: " ++ msg⟩
      | none =>
        match jsOrStr env.capturedToken (jsOrStr env.pageToken none) with
        | some tok => .ok tok
        | none => .error ⟨"Unable to extract Coveo token from SAP search page"⟩
  finishToken st3 launched bodyResult

/-! ## Search pipeline (`SapNotesApiClient.searchNotes`) -/

/-- The Coveo search HTTP response as consumed by `searchNotes`. -/
structure SearchHttpResponse where
  ok : Bool
  status : Nat
  errorText : String
  data : CoveoData
deriving Repr

/-- Environment of one `searchNotes` call: the outcome of the token
derivation (`getCoveoToken`) and of the search `fetch`. -/
structure SearchEnv where
  coveoToken : Except JsError String
  http : Except JsError SearchHttpResponse

/-- `SapNotesApiClient.searchNotes`: derive the bearer token, post the
structured query, fail on a non-2xx status, normalize the hits; any
error of the body — including the deriver's `SESSION_EXPIRED` — is
caught and re-thrown wrapped as `SAP Notes search failed: <message>`. -/
def searchNotes (query : String) (env : SearchEnv) : Except JsError SapNoteSearchResponse :=
  let body : Except JsError SapNoteSearchResponse :=
    match env.coveoToken with
    | .error e => .error e
    | .ok _ =>
      match env.http with
      | .error e => .error e
      | .ok resp =>
        if !resp.ok then
          .error ⟨"Coveo API returned " ++ toString resp.status ++ ": "
                    ++ String.mk (resp.errorText.toList.take 100)⟩
        else
          let results := parseCoveoResponse resp.data
          .ok { results := results
                totalResults := jsOrNat resp.data.totalCount results.length
                query := query }
  match body with
  | .ok r => .ok r
  | .error e => .error ⟨"SAP Notes search failed: " ++ e.message⟩

/-! ## Tool dispatch input validation (`mcp-server-official.ts`) -/

/-- The raw arguments of a `sap_note_search` tool call; `none` models a
missing (or non-string) property. -/
structure SearchToolArgs where
  q : Option String
  lang : Option String
deriving DecidableEq, Repr

/-- The Zod input schema of the `sap_note_search` tool in the
official-SDK server: `q: z.string()` (required, no length constraint)
and `lang: z.enum(['EN','DE']).default('EN')`. -/
def officialSearchInputValid (args : SearchToolArgs) : Bool :=
  args.q.isSome &&
    (match args.lang with
     | some l => l == "EN" || l == "DE"
     | none => true)

/-- The official-SDK dispatch for `sap_note_search`: when the input
schema accepts the arguments, the handler is invoked with the query
(and unconditionally proceeds to `ensureAuthenticated` and
`searchNotes`, i.e. to network activity); otherwise the SDK rejects
the call before the handler runs. -/
def officialSearchDispatch (args : SearchToolArgs) : Except JsError String :=
  if officialSearchInputValid args then .ok (args.q.getD "")
  else .error ⟨"Invalid arguments"⟩

/-- Modelled from the spec: `SAP_NOTE_SEARCH_SCHEMA`, exported by the
repository's `types.ts` (absent from the source snapshot) and enforced
with Ajv by the HTTP server variants; the repository's specification
document gives it `q : string` with `minLength: 2` and
`maxLength: 200` plus the optional `lang` enum. -/
def sapNoteSearchSchemaValid (args : SearchToolArgs) : Bool :=
  match args.q with
  | some q =>
    (2 ≤ q.length && q.length ≤ 200) &&
      (match args.lang with
       | some l => l == "EN" || l == "DE"
       | none => true)
  | none => false

/-! ## Authenticator resources and `destroy` (`auth.ts`) -/

/-- The parsed content of `token-cache.json`. -/
structure CachedTokenRec where
  access_token : String
  cookies : List (String × String)
  expiresAt : Nat
deriving DecidableEq, Repr

/-- The in-memory `AuthState` of `SapAuthenticator`. -/
structure AuthStateRec where
  token : Option String
  expiresAt : Option Nat
  isAuthenticated : Bool
deriving DecidableEq, Repr

/-- The resource fields of a `SapAuthenticator` instance together with
the on-disk token cache (`none` = file absent). -/
structure AuthResources where
  authState : AuthStateRec
  browser : Option Nat
  context : Option Nat
  page : Option Nat
  diskCache : Option CachedTokenRec
deriving DecidableEq, Repr

/-- `SapAuthenticator.cleanup`: close the login browser when one is
held; a close error (`closeFails`) is caught and logged, and the
`finally` clears the handles regardless. -/
def cleanup (_closeFails : Bool) (s : AuthResources) : AuthResources :=
  match s.browser with
  | some _ => { s with browser := none, context := none, page := none }
  | none => s

/-- `SapAuthenticator.saveCachedToken`: write the record to
`token-cache.json` as a whole. -/
def saveCachedToken (rec : CachedTokenRec) (s : AuthResources) : AuthResources :=
  { s with diskCache := some rec }

/-- `SapAuthenticator.loadCachedToken`: read `token-cache.json`;
absence yields `null`. -/
def loadCachedToken (s : AuthResources) : Option CachedTokenRec :=
  s.diskCache

/-- `SapAuthenticator.destroy`: reset the in-memory authentication
state, run `cleanup`, and only inspect — never delete or modify — the
on-disk token cache (the `unlinkSync` in the source is commented
out). -/
def destroy (closeFails : Bool) (s : AuthResources) : AuthResources :=
  cleanup closeFails { s with authState := ⟨none, none, false⟩ }

/-! ## The authentication state machine (`SapAuthenticator`)

`ensureAuthenticated` under the cooperative (single-threaded,
suspension-only-at-`await`) concurrency of the runtime.  Each caller
is a small program over the lines of `ensureAuthenticated`; the code
from function entry up to the first `await` runs atomically.  The
`authenticate()` operation is abstract: it is an op slot that a
scheduler event resolves with an outcome, at which point the fields of
`authState` are set exactly as `authenticate` sets them before its
promise settles.  Time is a constant `now` for the duration of a
scenario. -/

/-- The 5-minute validity buffer of `isTokenValid` /
`isTokenValidFromCache`. -/
def bufferMs : Nat := 5 * 60 * 1000

/-- `SapAuthenticator.isTokenValid`: requires a truthy token and
expiry, then `Date.now() < expiresAt - bufferMs`. -/
def isTokenValid (now : Nat) (token : Option String) (expiresAt : Option Nat) : Bool :=
  match token, expiresAt with
  | some t, some e => (t != "") && (e != 0) && decide (now + bufferMs < e)
  | _, _ => false

/-- `SapAuthenticator.isTokenValidFromCache`: the same validity test
applied to the on-disk record. -/
def isTokenValidFromCache (now : Nat) (rec : CachedTokenRec) : Bool :=
  (rec.access_token != "") && (rec.expiresAt != 0) && decide (now + bufferMs < rec.expiresAt)

/-- Outcome of one `authenticate()` run: fulfilment after storing a
session token with its expiry, or rejection with an error message. -/
inductive AuthOutcome
  | success (tok : String) (exp : Nat)
  | failure (err : String)
deriving DecidableEq, Repr

/-- What one `ensureAuthenticated()` caller ends with. -/
inductive CallResult
  | ok (tok : String)
  | err (msg : String)
deriving DecidableEq, Repr

/-- Where a caller currently is inside `ensureAuthenticated`. -/
inductive CallerPhase
  | notStarted
  | waiting (k : Nat)
  | ownerWaiting (k : Nat)
  | done (r : CallResult)
deriving DecidableEq, Repr

/-- The shared state: the callers, the `authState` fields, the
`authPromise` single-flight handle (holding the index of the op it
refers to), and the list of `authenticate()` ops ever started
(`none` = still pending). -/
structure AuthSys where
  callers : List CallerPhase
  token : Option String
  expiresAt : Option Nat
  authPromise : Option Nat
  ops : List (Option AuthOutcome)
deriving DecidableEq, Repr

/-- Start a new `authenticate()` op: record its promise in
`authPromise` and suspend the caller on it (lines 244-245 of the
source file). -/
def startOp (i : Nat) (s : AuthSys) : AuthSys :=
  { s with
      callers := s.callers.set i (.ownerWaiting s.ops.length)
      authPromise := some s.ops.length
      ops := s.ops ++ [none] }

/-- The code from the `isTokenValid()` check onward: return the cached
token when valid, otherwise start a new authentication op. -/
def tailStep (now : Nat) (i : Nat) (s : AuthSys) : AuthSys :=
  if isTokenValid now s.token s.expiresAt then
    { s with callers := s.callers.set i (.done (.ok (s.token.getD ""))) }
  else startOp i s

/-- The owner caller resuming from `await this.authPromise`: on
fulfilment it clears the handle and returns the stored token (or
throws when none was stored); on rejection the error propagates and —
the `this.authPromise = null` line being skipped — the handle stays
set. -/
def ownerResume (i : Nat) (o : AuthOutcome) (s : AuthSys) : AuthSys :=
  match o with
  | .failure err => { s with callers := s.callers.set i (.done (.err err)) }
  | .success _ _ =>
    match s.token with
    | some t =>
      if t = "" then
        { s with
            authPromise := none
            callers := s.callers.set i (.done (.err "Authentication failed - no token received")) }
      else { s with authPromise := none, callers := s.callers.set i (.done (.ok t)) }
    | none =>
      { s with
          authPromise := none
          callers := s.callers.set i (.done (.err "Authentication failed - no token received")) }

/-- Scheduler events: a caller entering `ensureAuthenticated`, an
`authenticate()` op settling with an outcome, a suspended caller
resuming. -/
inductive AuthEv
  | start (i : Nat)
  | resolve (k : Nat) (o : AuthOutcome)
  | wake (i : Nat)
deriving DecidableEq, Repr

/-- One scheduler step; `none` when the event is not enabled. -/
def step (now : Nat) (s : AuthSys) (e : AuthEv) : Option AuthSys :=
  match e with
  | .start i =>
    match s.callers.get? i with
    | some .notStarted =>
      match s.authPromise with
      | some k => some { s with callers := s.callers.set i (.waiting k) }
      | none => some (tailStep now i s)
    | _ => none
  | .resolve k o =>
    match s.ops.get? k with
    | some none =>
      some { s with
              ops := s.ops.set k (some o)
              token := match o with | .success t _ => some t | .failure _ => none
              expiresAt := match o with | .success _ e2 => some e2 | .failure _ => none }
    | _ => none
  | .wake i =>
    match s.callers.get? i with
    | some (.waiting k) =>
      match s.ops.get? k with
      | some (some o) =>
        match o with
        | .failure err => some { s with callers := s.callers.set i (.done (.err err)) }
        | .success _ _ => some (tailStep now i s)
      | _ => none
    | some (.ownerWaiting k) =>
      match s.ops.get? k with
      | some (some o) => some (ownerResume i o s)
      | _ => none
    | _ => none

/-- Run a list of scheduler events. -/
def run (now : Nat) (s : AuthSys) : List AuthEv → Option AuthSys
  | [] => some s
  | e :: es =>
    match step now s e with
    | some s2 => run now s2 es
    | none => none

/-- Initial state with `n` callers and no cached session. -/
def initAuthSys (n : Nat) : AuthSys :=
  { callers := List.replicate n .notStarted
    token := none
    expiresAt := none
    authPromise := none
    ops := [] }

/-- Initial state of a single caller with a cached in-memory session
record. -/
def cachedInit (t : String) (e : Nat) : AuthSys :=
  { callers := [.notStarted]
    token := some t
    expiresAt := some e
    authPromise := none
    ops := [] }

/-- A sane `authenticate()` outcome: fulfilment stores a truthy token
whose expiry lies beyond the validity buffer — which the login path
guarantees by construction (`expiresAt = now + maxJwtAgeH hours` with
a non-zero configured age, a non-empty cookie string) and the
disk-cache path guarantees by its own `isTokenValidFromCache`
check. -/
def goodOutcomeB (now : Nat) : AuthOutcome → Bool
  | .success t e => (t != "") && decide (now + bufferMs < e)
  | .failure _ => true

/-- `goodOutcomeB` lifted to events. -/
def goodEventB (now : Nat) : AuthEv → Bool
  | .resolve _ o => goodOutcomeB now o
  | _ => true

/-! ### Reachability invariant of the authentication machine -/

/-- Caller phases possible while the single op is pending. -/
def phaseA1Allowed (c : CallerPhase) : Prop :=
  c = .notStarted ∨ c = .waiting 0 ∨ c = .ownerWaiting 0

/-- Caller phases possible after the op fulfilled with token `t`. -/
def phaseBSAllowed (t : String) (c : CallerPhase) : Prop :=
  c = .notStarted ∨ c = .waiting 0 ∨ c = .ownerWaiting 0 ∨ c = .done (.ok t)

/-- Caller phases possible after the op rejected with `err`. -/
def phaseBFAllowed (err : String) (c : CallerPhase) : Prop :=
  c = .notStarted ∨ c = .waiting 0 ∨ c = .ownerWaiting 0 ∨ c = .done (.err err)

/-- Phase A0: no authentication op has started. -/
def InvA0 (s : AuthSys) : Prop :=
  s.ops = [] ∧ s.authPromise = none ∧ s.token = none ∧ s.expiresAt = none ∧
  ∀ c ∈ s.callers, c = .notStarted

/-- Phase A1: exactly one op, still pending. -/
def InvA1 (s : AuthSys) : Prop :=
  s.ops = [none] ∧ s.authPromise = some 0 ∧ s.token = none ∧ s.expiresAt = none ∧
  ∀ c ∈ s.callers, phaseA1Allowed c

/-- Phase B (success): the one op fulfilled with a good outcome. -/
def InvBS (now : Nat) (t : String) (e : Nat) (s : AuthSys) : Prop :=
  s.ops = [some (.success t e)] ∧ s.token = some t ∧ s.expiresAt = some e ∧
  t ≠ "" ∧ now + bufferMs < e ∧
  (s.authPromise = some 0 ∨ s.authPromise = none) ∧
  ∀ c ∈ s.callers, phaseBSAllowed t c

/-- Phase B (failure): the one op rejected; the handle is never
cleared on this path. -/
def InvBF (err : String) (s : AuthSys) : Prop :=
  s.ops = [some (.failure err)] ∧ s.token = none ∧ s.expiresAt = none ∧
  s.authPromise = some 0 ∧
  ∀ c ∈ s.callers, phaseBFAllowed err c

/-- States reachable from a fresh system by good events. -/
def Inv (now : Nat) (s : AuthSys) : Prop :=
  InvA0 s ∨ InvA1 s ∨ (∃ t e, InvBS now t e s) ∨ (∃ err, InvBF err s)

/-! # Theorems -/

theorem isTokenValid_some_true {now : Nat} {t : String} {e : Nat}
    (ht : t ≠ "") (he : now + bufferMs < e) :
    isTokenValid now (some t) (some e) = true := by
  have he0 : e ≠ 0 := by omega
  simp [isTokenValid, ht, he, he0]

theorem isTokenValid_none_left (now : Nat) (e : Option Nat) :
    isTokenValid now none e = false := by
  simp [isTokenValid]

theorem tailStep_invalid {now : Nat} {s : AuthSys} (i : Nat)
    (hval : isTokenValid now s.token s.expiresAt = false) :
    tailStep now i s = startOp i s := by
  simp [tailStep, hval]

theorem tailStep_valid {now : Nat} {s : AuthSys} {t : String} (i : Nat)
    (htok : s.token = some t)
    (hval : isTokenValid now s.token s.expiresAt = true) :
    tailStep now i s = { s with callers := s.callers.set i (.done (.ok t)) } := by
  have h2 : isTokenValid now (some t) s.expiresAt = true := htok ▸ hval
  simp [tailStep, htok, h2]

theorem step_inv (now : Nat) {s s2 : AuthSys} {e : AuthEv}
    (hInv : Inv now s) (hg : goodEventB now e = true)
    (hstep : step now s e = some s2) : Inv now s2 := by
  cases e with
  | start i =>
    simp only [step] at hstep
    rcases hc : s.callers.get? i with _ | c
    · rw [hc] at hstep; simp at hstep
    · rw [hc] at hstep
      cases c with
      | waiting k => simp at hstep
      | ownerWaiting k => simp at hstep
      | done r => simp at hstep
      | notStarted =>
        rcases hInv with ⟨hops, hap, htok, hexp, hcall⟩ |
            ⟨hops, hap, htok, hexp, hcall⟩ |
            ⟨t, te, hops, htok, hexp, ht, hte, hap, hcall⟩ |
            ⟨err, hops, htok, hexp, hap, hcall⟩
        · -- A0 → A1 via startOp
          rw [hap] at hstep
          simp only [Option.some.injEq] at hstep
          have hval : isTokenValid now s.token s.expiresAt = false := by
            rw [htok]; exact isTokenValid_none_left now _
          rw [tailStep_invalid i hval] at hstep
          subst hstep
          right; left
          refine ⟨?_, ?_, htok, hexp, ?_⟩
          · simp [startOp, hops]
          · simp [startOp, hops]
          · intro c hmem
            simp only [startOp, hops] at hmem
            rcases List.mem_or_eq_of_mem_set hmem with hin | rfl
            · exact Or.inl (hcall c hin)
            · exact Or.inr (Or.inr rfl)
        · -- A1: join the pending op
          rw [hap] at hstep
          simp only [Option.some.injEq] at hstep
          subst hstep
          right; left
          refine ⟨hops, rfl, htok, hexp, ?_⟩
          intro c hmem
          rcases List.mem_or_eq_of_mem_set hmem with hin | rfl
          · exact hcall c hin
          · exact Or.inr (Or.inl rfl)
        · -- B success
          rcases hap with hap | hap
          · rw [hap] at hstep
            simp only [Option.some.injEq] at hstep
            subst hstep
            right; right; left
            refine ⟨t, te, hops, htok, hexp, ht, hte, Or.inl rfl, ?_⟩
            intro c hmem
            rcases List.mem_or_eq_of_mem_set hmem with hin | rfl
            · exact hcall c hin
            · exact Or.inr (Or.inl rfl)
          · rw [hap] at hstep
            simp only [Option.some.injEq] at hstep
            have hval : isTokenValid now s.token s.expiresAt = true := by
              rw [htok, hexp]; exact isTokenValid_some_true ht hte
            rw [tailStep_valid i htok hval] at hstep
            subst hstep
            right; right; left
            refine ⟨t, te, hops, htok, hexp, ht, hte, Or.inr hap, ?_⟩
            intro c hmem
            rcases List.mem_or_eq_of_mem_set hmem with hin | rfl
            · exact hcall c hin
            · exact Or.inr (Or.inr (Or.inr rfl))
        · -- B failure: join the stale promise
          rw [hap] at hstep
          simp only [Option.some.injEq] at hstep
          subst hstep
          right; right; right
          refine ⟨err, hops, htok, hexp, rfl, ?_⟩
          intro c hmem
          rcases List.mem_or_eq_of_mem_set hmem with hin | rfl
          · exact hcall c hin
          · exact Or.inr (Or.inl rfl)
  | resolve k o =>
    simp only [step] at hstep
    rcases hInv with ⟨hops, hap, htok, hexp, hcall⟩ |
        ⟨hops, hap, htok, hexp, hcall⟩ |
        ⟨t, te, hops, htok, hexp, ht, hte, hap, hcall⟩ |
        ⟨err, hops, htok, hexp, hap, hcall⟩
    · rw [hops] at hstep; simp at hstep
    · rw [hops] at hstep
      cases k with
      | succ m => simp at hstep
      | zero =>
        simp only [List.get?_cons_zero, Option.some.injEq] at hstep
        subst hstep
        simp only [goodEventB] at hg
        cases o with
        | success t2 e2 =>
          simp only [goodOutcomeB, Bool.and_eq_true, bne_iff_ne, ne_eq,
            decide_eq_true_eq] at hg
          right; right; left
          exact ⟨t2, e2, by simp, rfl, rfl, hg.1, hg.2, Or.inl hap, fun c hc => by
            rcases hcall c hc with h | h | h
            · exact Or.inl h
            · exact Or.inr (Or.inl h)
            · exact Or.inr (Or.inr (Or.inl h))⟩
        | failure msg =>
          right; right; right
          exact ⟨msg, by simp, rfl, rfl, hap, fun c hc => by
            rcases hcall c hc with h | h | h
            · exact Or.inl h
            · exact Or.inr (Or.inl h)
            · exact Or.inr (Or.inr (Or.inl h))⟩
    · rw [hops] at hstep
      cases k with
      | zero => simp at hstep
      | succ m => simp at hstep
    · rw [hops] at hstep
      cases k with
      | zero => simp at hstep
      | succ m => simp at hstep
  | wake i =>
    simp only [step] at hstep
    rcases hc : s.callers.get? i with _ | c
    · rw [hc] at hstep; simp at hstep
    · rw [hc] at hstep
      have hmem := List.get?_mem hc
      cases c with
      | notStarted => simp at hstep
      | done r => simp at hstep
      | waiting k =>
        rcases hInv with ⟨hops, hap, htok, hexp, hcall⟩ |
            ⟨hops, hap, htok, hexp, hcall⟩ |
            ⟨t, te, hops, htok, hexp, ht, hte, hap, hcall⟩ |
            ⟨err, hops, htok, hexp, hap, hcall⟩
        · exact absurd (hcall _ hmem) (by simp)
        · have hk : k = 0 := by
            rcases hcall _ hmem with h | h | h <;> simp_all [phaseA1Allowed]
          subst hk
          rw [hops] at hstep
          simp at hstep
        · have hk : k = 0 := by
            rcases hcall _ hmem with h | h | h | h <;> simp_all [phaseBSAllowed]
          subst hk
          rw [hops] at hstep
          simp only [List.get?_cons_zero, Option.some.injEq] at hstep
          have hval : isTokenValid now s.token s.expiresAt = true := by
            rw [htok, hexp]; exact isTokenValid_some_true ht hte
          rw [tailStep_valid i htok hval] at hstep
          subst hstep
          right; right; left
          refine ⟨t, te, hops, htok, hexp, ht, hte, hap, ?_⟩
          intro c hmem2
          rcases List.mem_or_eq_of_mem_set hmem2 with hin | rfl
          · exact hcall c hin
          · exact Or.inr (Or.inr (Or.inr rfl))
        · have hk : k = 0 := by
            rcases hcall _ hmem with h | h | h | h <;> simp_all [phaseBFAllowed]
          subst hk
          rw [hops] at hstep
          simp only [List.get?_cons_zero, Option.some.injEq] at hstep
          subst hstep
          right; right; right
          refine ⟨err, rfl, htok, hexp, hap, ?_⟩
          intro c hmem2
          rcases List.mem_or_eq_of_mem_set hmem2 with hin | rfl
          · exact hcall c hin
          · exact Or.inr (Or.inr (Or.inr rfl))
      | ownerWaiting k =>
        rcases hInv with ⟨hops, hap, htok, hexp, hcall⟩ |
            ⟨hops, hap, htok, hexp, hcall⟩ |
            ⟨t, te, hops, htok, hexp, ht, hte, hap, hcall⟩ |
            ⟨err, hops, htok, hexp, hap, hcall⟩
        · exact absurd (hcall _ hmem) (by simp)
        · have hk : k = 0 := by
            rcases hcall _ hmem with h | h | h <;> simp_all [phaseA1Allowed]
          subst hk
          rw [hops] at hstep
          simp at hstep
        · have hk : k = 0 := by
            rcases hcall _ hmem with h | h | h | h <;> simp_all [phaseBSAllowed]
          subst hk
          rw [hops] at hstep
          simp only [List.get?_cons_zero, Option.some.injEq] at hstep
          have hres : ownerResume i (.success t te) s
              = { s with authPromise := none,
                         callers := s.callers.set i (.done (.ok t)) } := by
            simp [ownerResume, htok, ht]
          rw [hres] at hstep
          subst hstep
          right; right; left
          refine ⟨t, te, hops, htok, hexp, ht, hte, Or.inr rfl, ?_⟩
          intro c hmem2
          rcases List.mem_or_eq_of_mem_set hmem2 with hin | rfl
          · exact hcall c hin
          · exact Or.inr (Or.inr (Or.inr rfl))
        · have hk : k = 0 := by
            rcases hcall _ hmem with h | h | h | h <;> simp_all [phaseBFAllowed]
          subst hk
          rw [hops] at hstep
          simp only [List.get?_cons_zero, Option.some.injEq] at hstep
          have hres : ownerResume i (.failure err) s
              = { s with callers := s.callers.set i (.done (.err err)) } := by
            simp [ownerResume]
          rw [hres] at hstep
          subst hstep
          right; right; right
          refine ⟨err, hops, htok, hexp, hap, ?_⟩
          intro c hmem2
          rcases List.mem_or_eq_of_mem_set hmem2 with hin | rfl
          · exact hcall c hin
          · exact Or.inr (Or.inr (Or.inr rfl))

theorem tailStep_callers_length (now i : Nat) (s : AuthSys) :
    (tailStep now i s).callers.length = s.callers.length := by
  unfold tailStep startOp
  split <;> simp [List.length_set]

theorem ownerResume_callers_length (i : Nat) (o : AuthOutcome) (s : AuthSys) :
    (ownerResume i o s).callers.length = s.callers.length := by
  unfold ownerResume
  rcases o with _ | _
  · rcases htok : s.token with _ | t
    · simp [List.length_set]
    · by_cases ht2 : t = "" <;> simp [htok, ht2, List.length_set]
  · simp [List.length_set]

theorem step_callers_length (now : Nat) {s s2 : AuthSys} {e : AuthEv}
    (hstep : step now s e = some s2) : s2.callers.length = s.callers.length := by
  cases e <;> simp only [step] at hstep
  all_goals repeat' split at hstep
  all_goals first
    | exact Option.noConfusion hstep
    | (simp only [Option.some.injEq] at hstep; subst hstep;
       first
         | rfl
         | simp [tailStep_callers_length, ownerResume_callers_length, List.length_set])

theorem run_inv (now : Nat) : ∀ (tr : List AuthEv) {s s2 : AuthSys},
    Inv now s → tr.all (goodEventB now) = true → run now s tr = some s2 → Inv now s2
  | [], _, _, hInv, _, hrun => by
    simp only [run, Option.some.injEq] at hrun
    exact hrun ▸ hInv
  | e :: es, s, s2, hInv, hgood, hrun => by
    simp only [run] at hrun
    rcases hs : step now s e with _ | sm
    · rw [hs] at hrun; exact Option.noConfusion hrun
    · rw [hs] at hrun
      simp only [List.all_cons, Bool.and_eq_true] at hgood
      exact run_inv now es (step_inv now hInv hgood.1 hs) hgood.2 hrun

theorem run_callers_length (now : Nat) : ∀ (tr : List AuthEv) {s s2 : AuthSys},
    run now s tr = some s2 → s2.callers.length = s.callers.length
  | [], _, _, hrun => by
    simp only [run, Option.some.injEq] at hrun
    exact hrun ▸ rfl
  | e :: es, s, s2, hrun => by
    simp only [run] at hrun
    rcases hs : step now s e with _ | sm
    · rw [hs] at hrun; exact Option.noConfusion hrun
    · rw [hs] at hrun
      exact (run_callers_length now es hrun).trans (step_callers_length now hs)

theorem inv_pending {now : Nat} {s : AuthSys} (h : Inv now s) :
    s.ops.countP Option.isNone ≤ 1 := by
  rcases h with ⟨hops, _⟩ | ⟨hops, _⟩ | ⟨t, e, hops, _⟩ | ⟨err, hops, _⟩ <;>
    simp [hops, List.countP_cons, List.countP_nil]

/-- **C1**: For every set of N concurrent invocations of
`ensureAuthenticated()` issued before any of them resolves — and in
fact for every schedule of N callers starting from a fresh
authenticator — at most one in-flight authentication operation exists
process-wide at any instant (the `authPromise` handle refers to the
single op of the scenario), exactly one underlying login sequence
executes (`ops` has exactly one entry), and all N calls resolve with
the same session material or all reject with the same error.  The
outcome hypothesis `goodEventB` states what `authenticate()`
guarantees on fulfilment: a truthy stored token whose recorded expiry
lies beyond the 5-minute buffer (fresh login: `now + maxJwtAgeH`
hours with a non-zero configured age and a non-empty cookie string;
cache hit: enforced by `isTokenValidFromCache`). -/
theorem ensureAuthenticated_single_flight
    (now n : Nat) (trace : List AuthEv) (final : AuthSys)
    (hn : 0 < n)
    (hgood : trace.all (goodEventB now) = true)
    (hrun : run now (initAuthSys n) trace = some final)
    (hdone : ∀ c ∈ final.callers, ∃ r, c = .done r) :
    final.ops.length = 1 ∧
    ((∃ t e, final.ops = [some (.success t e)] ∧
        ∀ c ∈ final.callers, c = .done (.ok t)) ∨
     (∃ err, final.ops = [some (.failure err)] ∧
        ∀ c ∈ final.callers, c = .done (.err err))) ∧
    (∀ pre suf s2, trace = pre ++ suf →
       run now (initAuthSys n) pre = some s2 →
       s2.ops.countP Option.isNone ≤ 1) := by
  have hInit : Inv now (initAuthSys n) := by
    left
    refine ⟨rfl, rfl, rfl, rfl, ?_⟩
    intro c hc
    exact List.eq_of_mem_replicate hc
  have hprefix : ∀ pre suf s2, trace = pre ++ suf →
      run now (initAuthSys n) pre = some s2 →
      s2.ops.countP Option.isNone ≤ 1 := by
    intro pre suf s2 htr hpre
    have hgoodpre : pre.all (goodEventB now) = true := by
      subst htr
      rw [List.all_append, Bool.and_eq_true] at hgood
      exact hgood.1
    exact inv_pending (run_inv now pre hInit hgoodpre hpre)
  have hInv := run_inv now trace hInit hgood hrun
  have hlen : final.callers.length = n := by
    have h := run_callers_length now trace hrun
    simpa [initAuthSys] using h
  obtain ⟨c0, hc0⟩ : ∃ c, c ∈ final.callers :=
    List.exists_mem_of_length_pos (by omega)
  rcases hInv with ⟨hops, _, _, _, hcall⟩ | ⟨hops, _, _, _, hcall⟩ |
      ⟨t, te, hops, htok, hexp, ht, hte, hap, hcall⟩ |
      ⟨err, hops, htok, hexp, hap, hcall⟩
  · obtain ⟨r, hr⟩ := hdone c0 hc0
    have h := hcall c0 hc0
    rw [hr] at h
    exact absurd h (by simp)
  · obtain ⟨r, hr⟩ := hdone c0 hc0
    have h := hcall c0 hc0
    rw [hr] at h
    rcases h with h | h | h <;> simp at h
  · refine ⟨by rw [hops]; rfl, Or.inl ⟨t, te, hops, ?_⟩, hprefix⟩
    intro c hc
    obtain ⟨r, hr⟩ := hdone c hc
    rcases hcall c hc with h | h | h | h
    · rw [hr] at h; simp at h
    · rw [hr] at h; simp at h
    · rw [hr] at h; simp at h
    · exact h
  · refine ⟨by rw [hops]; rfl, Or.inr ⟨err, hops, ?_⟩, hprefix⟩
    intro c hc
    obtain ⟨r, hr⟩ := hdone c hc
    rcases hcall c hc with h | h | h | h
    · rw [hr] at h; simp at h
    · rw [hr] at h; simp at h
    · rw [hr] at h; simp at h
    · exact h

/-- Witness for C1: a concrete schedule of two callers that both start
before the single login resolves; both end with the same token and
exactly one op ran. -/
theorem ensureAuthenticated_single_flight_witness :
    0 < 2 ∧
    ({ callers := [CallerPhase.done (.ok "tok"), CallerPhase.done (.ok "tok")]
       token := some "tok"
       expiresAt := some 3600000
       authPromise := none
       ops := [some (.success "tok" 3600000)] : AuthSys }).ops.length = 1 :=
  ⟨by decide,
    (ensureAuthenticated_single_flight 0 2
      [.start 0, .start 1, .resolve 0 (.success "tok" 3600000), .wake 1, .wake 0]
      { callers := [.done (.ok "tok"), .done (.ok "tok")]
        token := some "tok"
        expiresAt := some 3600000
        authPromise := none
        ops := [some (.success "tok" 3600000)] }
      (by decide) (by decide) (by decide)
      (by
        intro c hc
        rcases List.mem_cons.mp hc with rfl | hc2
        · exact ⟨_, rfl⟩
        · rcases List.mem_cons.mp hc2 with rfl | hc3
          · exact ⟨_, rfl⟩
          · exact absurd hc3 (List.not_mem_nil c))).1⟩

/-- **C2** (code bug): when `authenticate()` rejects, the `await
this.authPromise` on line 245 re-raises before the
`this.authPromise = null` on line 246 runs, so while the authenticated
state is cleared (`token = none`) and the typed error propagates, the
in-flight handle is NOT cleared (`authPromise` still `some 0`).  A
subsequent call finds the stale rejected promise, re-raises its error,
and never starts a fresh login (`ops` still has a single, failed
entry) — the code contradicts the specified failure-path contract. -/
theorem ensureAuthenticated_stale_failure :
    run 0 (initAuthSys 2)
      [.start 0, .resolve 0 (.failure "login failed"), .wake 0, .start 1, .wake 1]
    = some
      { callers := [.done (.err "login failed"), .done (.err "login failed")]
        token := none
        expiresAt := none
        authPromise := some 0
        ops := [some (.failure "login failed")] } := by
  decide

/-- **C3**: `ensureAuthenticated()` returns the cached session material
without starting any authentication operation if and only if
`now < expiresAt − 5 minutes` (given a truthy cached token): the
validity predicate is exactly the buffer comparison, the on-disk
variant `isTokenValidFromCache` agrees, a record expiring in one hour
is served from cache with no op started, and a record expiring in
three minutes (inside the buffer) triggers a fresh authentication
operation. -/
theorem isTokenValid_buffer_boundary (now : Nat) (t : String) (ht : t ≠ "") :
    (∀ e : Nat, isTokenValid now (some t) (some e) = true ↔ now + bufferMs < e) ∧
    (∀ (cookies : List (String × String)) (e : Nat),
        isTokenValidFromCache now ⟨t, cookies, e⟩ = isTokenValid now (some t) (some e)) ∧
    (∀ e : Nat, now + bufferMs < e →
        step now (cachedInit t e) (.start 0)
          = some { cachedInit t e with callers := [.done (.ok t)] }) ∧
    (∀ e : Nat, ¬ now + bufferMs < e →
        step now (cachedInit t e) (.start 0)
          = some { cachedInit t e with
                    callers := [.ownerWaiting 0]
                    authPromise := some 0
                    ops := [none] }) ∧
    step now (cachedInit t (now + 3600000)) (.start 0)
      = some { cachedInit t (now + 3600000) with callers := [.done (.ok t)] } ∧
    step now (cachedInit t (now + 180000)) (.start 0)
      = some { cachedInit t (now + 180000) with
                callers := [.ownerWaiting 0]
                authPromise := some 0
                ops := [none] } := by
  have hiff : ∀ e : Nat, isTokenValid now (some t) (some e) = true ↔ now + bufferMs < e := by
    intro e
    constructor
    · intro h
      simp only [isTokenValid, Bool.and_eq_true, decide_eq_true_eq] at h
      exact h.2
    · intro h
      exact isTokenValid_some_true ht h
  have hvalid : ∀ e : Nat, now + bufferMs < e →
      step now (cachedInit t e) (.start 0)
        = some { cachedInit t e with callers := [.done (.ok t)] } := by
    intro e he
    have hval : isTokenValid now (some t) (some e) = true := isTokenValid_some_true ht he
    show some (tailStep now 0 (cachedInit t e)) = _
    rw [tailStep_valid 0 rfl hval]
    rfl
  have hstale : ∀ e : Nat, ¬ now + bufferMs < e →
      step now (cachedInit t e) (.start 0)
        = some { cachedInit t e with
                  callers := [.ownerWaiting 0]
                  authPromise := some 0
                  ops := [none] } := by
    intro e he
    have hval : isTokenValid now (some t) (some e) = false := by
      simp [isTokenValid, he]
    show some (tailStep now 0 (cachedInit t e)) = _
    rw [tailStep_invalid 0 hval]
    rfl
  refine ⟨hiff, ?_, hvalid, hstale, hvalid _ (by simp [bufferMs]), hstale _ (by simp [bufferMs])⟩
  intro cookies e
  rfl

/-- Witness for C3: a concrete cached record expiring one hour from
now is returned from cache without any login. -/
theorem isTokenValid_buffer_boundary_witness :
    "c" ≠ "" ∧
    step 0 (cachedInit "c" (0 + 3600000)) (.start 0)
      = some { cachedInit "c" (0 + 3600000) with callers := [.done (.ok "c")] } :=
  ⟨by decide, (isTokenValid_buffer_boundary 0 "c" (by decide)).2.2.2.2.1⟩

/-- Counterexample for C4 as stated: with token derivation rejecting
with the distinguished `SESSION_EXPIRED` signal, `searchNotes` does
not re-throw that signal — its catch-all converts it into a generic
`SAP Notes search failed: SESSION_EXPIRED` error. -/
theorem searchNotes_session_expired_not_distinguished :
    searchNotes "q" { coveoToken := .error ⟨"SESSION_EXPIRED"⟩, http := .error ⟨"unused"⟩ }
      = .error ⟨"SAP Notes search failed: SESSION_EXPIRED"⟩ ∧
    searchNotes "q" { coveoToken := .error ⟨"SESSION_EXPIRED"⟩, http := .error ⟨"unused"⟩ }
      ≠ .error ⟨"SESSION_EXPIRED"⟩ := by
  refine ⟨rfl, ?_⟩
  intro h
  rw [show searchNotes "q"
        { coveoToken := .error ⟨"SESSION_EXPIRED"⟩, http := .error ⟨"unused"⟩ }
      = Except.error ⟨"SAP Notes search failed: SESSION_EXPIRED"⟩ from rfl] at h
  injection h with h2
  injection h2 with h3
  exact absurd h3 (by decide)

/-- **C4** (amended): a `SESSION_EXPIRED` rejection of the token
deriver during search is not swallowed — `searchNotes` always
re-throws a failure — but it reaches the Dispatcher wrapped as the
generic error `SAP Notes search failed: SESSION_EXPIRED`, the
distinguished signal surviving only as a substring of the message; no
dispatcher in the repository re-authenticates and retries on it. -/
theorem searchNotes_propagates_wrapped_session_expired
    (q : String) (env : SearchEnv)
    (h : env.coveoToken = .error ⟨"SESSION_EXPIRED"⟩) :
    searchNotes q env = .error ⟨"SAP Notes search failed: SESSION_EXPIRED"⟩ ∧
    (∀ r, searchNotes q env ≠ .ok r) ∧
    strIncludes "SAP Notes search failed: SESSION_EXPIRED" "SESSION_EXPIRED" = true := by
  have heq : searchNotes q env = .error ⟨"SAP Notes search failed: SESSION_EXPIRED"⟩ := by
    simp [searchNotes, h]
  refine ⟨heq, ?_, by decide⟩
  intro r hr
  rw [heq] at hr
  exact Except.noConfusion hr

/-- Witness for the amended C4 at a concrete environment. -/
theorem searchNotes_propagates_wrapped_session_expired_witness :
    ({ coveoToken := .error ⟨"SESSION_EXPIRED"⟩, http := .error ⟨"unused"⟩
        : SearchEnv }).coveoToken = .error ⟨"SESSION_EXPIRED"⟩ ∧
    searchNotes "2744792"
        { coveoToken := .error ⟨"SESSION_EXPIRED"⟩, http := .error ⟨"unused"⟩ }
      = .error ⟨"SAP Notes search failed: SESSION_EXPIRED"⟩ :=
  ⟨rfl, (searchNotes_propagates_wrapped_session_expired "2744792" _ rfl).1⟩

theorem wrap_ne_session_expired (m : String) :
    "Failed to get Coveo bearer token: " ++ m ≠ "SESSION_EXPIRED" := by
  intro h
  have hlen := congrArg String.length h
  rw [String.length_append] at hlen
  have e1 : ("Failed to get Coveo bearer token: " : String).length = 34 := by decide
  have e2 : ("SESSION_EXPIRED" : String).length = 15 := by decide
  omega

theorem finishToken_session_expired (st3 : ClientState) (l : Bool)
    (b : Except JsError String)
    (h : (finishToken st3 l b).result = .error ⟨"SESSION_EXPIRED"⟩) :
    (finishToken st3 l b).state.browser = none ∧
    (finishToken st3 l b).state.browserContext = none := by
  rcases b with e | tok
  · unfold finishToken at h ⊢
    by_cases hin : strIncludes e.message "Session expired" = true
    · simp [hin]
    · simp only [Bool.not_eq_true] at hin
      simp only [hin, Bool.false_eq_true, if_false] at h
      injection h with h2
      injection h2 with h3
      exact absurd h3 (wrap_ne_session_expired e.message)
  · exact Except.noConfusion h

theorem finishToken_launchedNew (st3 : ClientState) (l : Bool)
    (b : Except JsError String) : (finishToken st3 l b).launchedNew = l := by
  rcases b with e | tok
  · unfold finishToken
    by_cases hin : strIncludes e.message "Session expired" = true <;> simp [hin]
  · rfl

/-- **C5**: a token-derivation call whose outcome is the distinguished
`SESSION_EXPIRED` error leaves the pool torn down — browser and
context handles absent — in the state it returns (i.e. before the
error reaches the caller); and a derivation call entered with no
pooled browser constructs a fresh browser and context rather than
reusing anything. -/
theorem getCoveoToken_session_expired_teardown :
    (∀ (now : Nat) (st : ClientState) (env : TokenNavEnv),
       (getCoveoToken now st env).result = .error ⟨"SESSION_EXPIRED"⟩ →
       (getCoveoToken now st env).state.browser = none ∧
       (getCoveoToken now st env).state.browserContext = none) ∧
    (∀ (now : Nat) (st : ClientState) (env : TokenNavEnv),
       st.browser = none → (getCoveoToken now st env).launchedNew = true) := by
  constructor
  · intro now st env h
    simp only [getCoveoToken] at h ⊢
    exact finishToken_session_expired _ _ _ h
  · intro now st env hb
    simp only [getCoveoToken, hb, finishToken_launchedNew, Option.isSome_none,
      Bool.false_and, Bool.false_eq_true, if_false]
    simp

/-- Witness for C5: injecting a login-page redirect tears the pool
down and surfaces `SESSION_EXPIRED`; the next call (empty pool)
launches a fresh browser. -/
theorem getCoveoToken_session_expired_teardown_witness :
    (getCoveoToken 0 ⟨some ⟨7, true⟩, some 8, 0, 9⟩ ⟨true, none, none, none⟩).result
      = .error ⟨"SESSION_EXPIRED"⟩ ∧
    (getCoveoToken 0 ⟨some ⟨7, true⟩, some 8, 0, 9⟩ ⟨true, none, none, none⟩).state.browser
      = none ∧
    ({ browser := none, browserContext := none, browserLastUsed := 0, nextId := 9
        : ClientState }).browser = none ∧
    (getCoveoToken 5 ⟨none, none, 0, 9⟩ ⟨false, none, some "T", none⟩).launchedNew = true :=
  ⟨rfl,
   (getCoveoToken_session_expired_teardown.1 0 ⟨some ⟨7, true⟩, some 8, 0, 9⟩
      ⟨true, none, none, none⟩ rfl).1,
   rfl,
   getCoveoToken_session_expired_teardown.2 5 ⟨none, none, 0, 9⟩
      ⟨false, none, some "T", none⟩ rfl⟩

theorem runFallbacks_none (env : GetNoteEnv) :
    ∀ (l : List String),
      (∀ ep ∈ l, env.fallback ep = .ok none ∨ ∃ e, env.fallback ep = .error e) →
      (runFallbacks env l).1 = none
  | [], _ => rfl
  | ep :: rest, h => by
    have hrest := runFallbacks_none env rest
      (fun x hx => h x (List.mem_cons_of_mem ep hx))
    rcases h ep (List.mem_cons_self ep rest) with he | ⟨e, he⟩ <;>
      simp [runFallbacks, he, hrest]

/-- **C6**: when every retrieval strategy fails or returns nothing —
the browser strategy throws or finds nothing, the raw-HTTP strategy
throws, gets a non-OK status, or parses nothing, and every legacy
fallback endpoint throws or yields nothing — `getNote` returns `null`
rather than raising, every individual failure having been swallowed;
and when strategy 1 yields a note, it is returned at once and
strategies 2 and 3 are never invoked. -/
theorem getNote_fallback_chain (noteId : String) (env : GetNoteEnv) :
    ((env.playwright = .ok none ∨ ∃ e1, env.playwright = .error e1) →
     (match env.rawHttp with
      | .ok out => out.ok = false ∨ out.parsed = none
      | .error _ => True) →
     (∀ ep ∈ fallbackEndpoints noteId,
        env.fallback ep = .ok none ∨ ∃ e2, env.fallback ep = .error e2) →
     (getNote noteId env).result = .ok none) ∧
    (∀ n, env.playwright = .ok (some n) →
        (getNote noteId env).result = .ok (some n) ∧
        (getNote noteId env).invoked = ["playwright"]) := by
  constructor
  · intro h1 h2 h3
    have hfb := runFallbacks_none env (fallbackEndpoints noteId) h3
    rcases hrh : env.rawHttp with e2 | out
    · rcases h1 with h1 | ⟨e1, h1⟩ <;> simp [getNote, h1, hrh, hfb]
    · rw [hrh] at h2
      rcases h2 with ho | hp
      · rcases h1 with h1 | ⟨e1, h1⟩ <;> simp [getNote, h1, hrh, ho, hfb]
      · cases hok : out.ok <;>
          (rcases h1 with h1 | ⟨e1, h1⟩ <;> simp [getNote, h1, hrh, hok, hp, hfb])
  · intro n h
    simp [getNote, h]

/-- Witness for C6: a run where every strategy fails returns `null`
with no error, and a run where strategy 1 finds note `2744792`
invokes only strategy 1. -/
theorem getNote_fallback_chain_witness :
    ({ playwright := .ok none, rawHttp := .ok ⟨false, none⟩
       fallback := fun _ => .error ⟨"HTTP 500"⟩ : GetNoteEnv }).playwright = .ok none ∧
    (getNote "2744792"
        { playwright := .ok none, rawHttp := .ok ⟨false, none⟩
          fallback := fun _ => .error ⟨"HTTP 500"⟩ }).result = .ok none ∧
    (getNote "2744792"
        { playwright := .ok (some ⟨"2744792", "Note title", "s", "c", "EN",
            "2019-03-15", none, none, none, "u"⟩)
          rawHttp := .error ⟨"unused"⟩
          fallback := fun _ => .error ⟨"unused"⟩ }).invoked = ["playwright"] :=
  ⟨rfl,
   (getNote_fallback_chain "2744792"
      { playwright := .ok none, rawHttp := .ok ⟨false, none⟩
        fallback := fun _ => .error ⟨"HTTP 500"⟩ }).1
     (Or.inl rfl) (Or.inl rfl) (fun _ _ => Or.inr ⟨⟨"HTTP 500"⟩, rfl⟩),
   ((getNote_fallback_chain "2744792"
      { playwright := .ok (some ⟨"2744792", "Note title", "s", "c", "EN",
          "2019-03-15", none, none, none, "u"⟩)
        rawHttp := .error ⟨"unused"⟩
        fallback := fun _ => .error ⟨"unused"⟩ }).2
     ⟨"2744792", "Note title", "s", "c", "EN", "2019-03-15", none, none, none, "u"⟩
     rfl).2⟩

/-- **C7** (code bug): the official-SDK server's `sap_note_search`
input schema is `q: z.string()` with no minimum length, so the empty
query passes input validation and the dispatch hands it to the
handler, which proceeds unconditionally to authentication and the
search pipeline; `searchNotes` performs no length check of its own
(it processes `""` like any other query, starting with token
derivation).  The repository's own schema documentation — and the
Ajv-enforced `SAP_NOTE_SEARCH_SCHEMA` of the HTTP server variants,
modelled from the spec — prescribe `minLength: 2`, which rejects the
empty query. -/
theorem officialSearch_accepts_empty_query :
    officialSearchDispatch ⟨some "", none⟩ = .ok "" ∧
    officialSearchInputValid ⟨some "", none⟩ = true ∧
    sapNoteSearchSchemaValid ⟨some "", none⟩ = false ∧
    sapNoteSearchSchemaValid ⟨some "ab", none⟩ = true ∧
    searchNotes "" { coveoToken := .error ⟨"boom"⟩, http := .error ⟨"unused"⟩ }
      = .error ⟨"SAP Notes search failed: boom"⟩ :=
  ⟨rfl, by decide, by decide, by decide, rfl⟩

/-- **C8**: a stubbed search response with one hit carrying
`raw.mh_id = "2744792"` and `raw.date = 1552608000000` normalizes to a
canonical result with `id = "2744792"` and `releaseDate =
"2019-03-15"`; a missing/non-array hit list and an empty hit list both
yield the explicit empty result list, not an error. -/
theorem parseCoveoResponse_normalization :
    parseCoveoResponse
      ⟨some [⟨some "Important note", some "Excerpt text", none,
          some ⟨some "2744792", none, some ["English"], none,
                some ["BC-MID-ALE"], none, none, none, some 1552608000000⟩⟩],
        some 1⟩
      = [⟨"2744792", "Important note", "Excerpt text", some "English",
          "2019-03-15", some "BC-MID-ALE",
          "https://launchpad.support.sap.com/#/notes/2744792"⟩] ∧
    parseCoveoResponse ⟨none, none⟩ = [] ∧
    parseCoveoResponse ⟨some [], some 0⟩ = [] := by
  decide

/-- **C9**: `parseHtmlForNoteDetail` returns a non-absent canonical
note for every input — title taken from the `<title>` tag when one
matches, `SAP Note <id>` otherwise, summary and content fixed
placeholders — and consequently `parseNoteResponse` (the parser of
the plain-HTTP detail strategies) never returns `none`: those
strategies can only yield absent by throwing. -/
theorem parseHtmlForNoteDetail_total :
    (∀ html noteId, (parseHtmlForNoteDetail html noteId).isSome = true) ∧
    (∀ html noteId,
        (parseHtmlForNoteDetail html noteId).map SapNoteDetail.summary
          = some "SAP Note details available at the provided URL") ∧
    (∀ html noteId,
        (parseHtmlForNoteDetail html noteId).map SapNoteDetail.content
          = some "Please visit the URL for complete note content") ∧
    (∀ html noteId, findTitleTag html.toList = none →
        (parseHtmlForNoteDetail html noteId).map SapNoteDetail.title
          = some ("SAP Note " ++ noteId)) ∧
    (∀ g html noteId, findTitleTag html.toList = some g →
        (parseHtmlForNoteDetail html noteId).map SapNoteDetail.title
          = some (String.mk (jsTrim (replaceSapOnce g)))) ∧
    (∀ body noteId, (parseNoteResponse body noteId).isSome = true) := by
  refine ⟨?_, ?_, ?_, ?_, ?_, ?_⟩
  · intro html noteId
    simp [parseHtmlForNoteDetail]
  · intro html noteId
    simp [parseHtmlForNoteDetail]
  · intro html noteId
    simp [parseHtmlForNoteDetail]
  · intro html noteId h
    have h2 : findTitleTag html.data = none := h
    simp [parseHtmlForNoteDetail, h2]
  · intro g html noteId h
    have h2 : findTitleTag html.data = some g := h
    simp [parseHtmlForNoteDetail, h2]
  · intro body noteId
    rcases hj : body.json with _ | d
    · simp [parseNoteResponse, hj, parseHtmlForNoteDetail]
    · rcases d with _ | item <;> simp [parseNoteResponse, hj, parseHtmlForNoteDetail]

/-- Witness for C9: concrete HTML with and without a `<title>` tag. -/
theorem parseHtmlForNoteDetail_total_witness :
    findTitleTag "plain body".toList = none ∧
    (parseHtmlForNoteDetail "plain body" "2744792").map SapNoteDetail.title
      = some ("SAP Note " ++ "2744792") ∧
    findTitleTag "<html><title>SAP - Note 2744792</title></html>".toList
      = some "SAP - Note 2744792".toList ∧
    (parseHtmlForNoteDetail "<html><title>SAP - Note 2744792</title></html>" "2744792").map
        SapNoteDetail.title
      = some (String.mk (jsTrim (replaceSapOnce "SAP - Note 2744792".toList))) :=
  ⟨by decide,
   (parseHtmlForNoteDetail_total.2.2.2.1 "plain body" "2744792" (by decide)),
   by decide,
   (parseHtmlForNoteDetail_total.2.2.2.2.1 "SAP - Note 2744792".toList
      "<html><title>SAP - Note 2744792</title></html>" "2744792" (by decide))⟩

/-- **C10**: `destroy()` resets the in-memory authentication state and
clears the browser handle, but leaves the on-disk token cache
untouched: a record persisted before `destroy()` is still present and
readable afterwards; and `destroy()` is total and idempotent — a
second call (with close errors injected or not) raises nothing and
changes nothing. -/
theorem destroy_frame :
    (∀ b s, (destroy b s).diskCache = s.diskCache) ∧
    (∀ b s, loadCachedToken (destroy b s) = loadCachedToken s) ∧
    (∀ b rec s, loadCachedToken (destroy b (saveCachedToken rec s)) = some rec) ∧
    (∀ b s, (destroy b s).authState = ⟨none, none, false⟩) ∧
    (∀ b s, (destroy b s).browser = none) ∧
    (∀ b b2 s, destroy b2 (destroy b s) = destroy b s) := by
  have hdisk : ∀ b s, (destroy b s).diskCache = s.diskCache := by
    intro b s
    unfold destroy cleanup
    rcases hb : s.browser with _ | x <;> simp
  refine ⟨hdisk, ?_, ?_, ?_, ?_, ?_⟩
  · intro b s
    simp [loadCachedToken, hdisk]
  · intro b rec s
    simp [loadCachedToken, hdisk, saveCachedToken]
  · intro b s
    unfold destroy cleanup
    rcases hb : s.browser with _ | x <;> simp
  · intro b s
    unfold destroy cleanup
    rcases hb : s.browser with _ | x <;> simp
  · intro b b2 s
    unfold destroy cleanup
    rcases hb : s.browser with _ | x <;> simp

end SapNotesMcp
